/-
Verification of the related-job resolver, lesson association manager,
scoring/completion tracker and leaderboard aggregator of the
ChisliHacks backend (app/crud/related_job.py, app/crud/lesson.py,
app/crud/user.py, app/api/auth.py).

The relational store is embedded shallowly: each table is a list of rows in
insertion order, `query(...).first()` is the head of the filtered list,
`order_by` is a stable sort, and autoincrement primary keys are
explicit counters.  Python `float` arithmetic (true division, int-by-float
multiplication, `round(x, 1)`, `int(x)`) is embedded exactly: a float is a
significand-exponent pair, and every float operation produces the IEEE-754
binary64 value of its exact rational result, obtained by rounding the
53-bit significand to nearest, ties to even.  All numeric inputs here are non-negative and far below the binary64
overflow threshold, so this normal-range model coincides with CPython.
-/
import Mathlib

set_option maxRecDepth 40000

/-- Round p / q (q > 0) to the nearest natural number, ties to even:
the rounding used by IEEE-754 binary64 arithmetic and by Python round. -/
def rne (p q : ℕ) : ℕ :=
  let d := p / q
  let r := p % q
  if q < 2 * r then d + 1
  else if 2 * r < q then d
  else if d % 2 = 1 then d + 1 else d

/-- An IEEE-754 binary64 floating-point value m · 2^e (all values arising
here are non-negative; zero is ⟨0, 0⟩).  Kept in the canonical form
2^52 ≤ m < 2^53 so equal values have equal representations. -/
structure Dbl where
  m : ℕ
  e : ℤ
deriving DecidableEq, Repr

/-- Scale the fraction a / b into [2^52, 2^53) by doublings of a or of b,
returning the scaled pair and the accumulated binary exponent shift. -/
def tdNorm (fuel : ℕ) (a b : ℕ) (e : ℤ) : ℕ × ℕ × ℤ :=
  match fuel with
  | 0 => (a, b, e)
  | f + 1 =>
    if a < 2 ^ 52 * b then tdNorm f (2 * a) b (e + 1)
    else if 2 ^ 53 * b ≤ a then tdNorm f a (2 * b) (e - 1)
    else (a, b, e)

/-- Nearest binary64 value of (a / b) · 2^e0 (round to nearest, ties to
even); 4400 shift steps cover every finite double exponent. -/
def dblNorm (a b : ℕ) (e0 : ℤ) : Dbl :=
  if a = 0 then ⟨0, 0⟩
  else
    let t := tdNorm 4400 a b 0
    let m := rne t.1 t.2.1
    if m = 2 ^ 53 then ⟨2 ^ 52, e0 - t.2.2 + 1⟩ else ⟨m, e0 - t.2.2⟩

/-- Conversion of a Python int to float. -/
def dblOfNat (n : ℕ) : Dbl := dblNorm n 1 0

/-- Correctly rounded float division. -/
def dblDiv (x y : Dbl) : Dbl := dblNorm x.m y.m (x.e - y.e)

/-- Correctly rounded float multiplication. -/
def dblMul (x y : Dbl) : Dbl := dblNorm (x.m * y.m) 1 (x.e + y.e)

/-- Python true division `a / b` on non-negative ints: both operands are
converted to double, then divided with one rounding. -/
def pyDiv (a b : ℕ) : Dbl := dblDiv (dblOfNat a) (dblOfNat b)

/-- Python `n * d` for a non-negative int n and float d: the int is
converted to double, then multiplied with one rounding. -/
def pyMul (n : ℕ) (d : Dbl) : Dbl := dblMul (dblOfNat n) d

/-- Python float value of the literal 0.7. -/
def py07 : Dbl := dblNorm 7 10 0

/-- Python float value of the literal 0.6. -/
def py06 : Dbl := dblNorm 6 10 0

/-- Python `round(x, 1)` for a non-negative float x: correctly round the
exact value of 10·x to an integer j (ties to even), then take the double
nearest to j / 10. -/
def dblRound1 (x : Dbl) : Dbl :=
  let j := if 0 ≤ x.e then 10 * x.m * 2 ^ x.e.toNat
           else rne (10 * x.m) (2 ^ (-x.e).toNat)
  dblNorm j 10 0

/-- Python `int(x)` for a non-negative float x: truncation toward zero. -/
def dblInt (x : Dbl) : ℕ :=
  if 0 ≤ x.e then x.m * 2 ^ x.e.toNat else x.m / 2 ^ (-x.e).toNat

/-- Exact rational value of a binary64 number. -/
def dblToRat (x : Dbl) : ℚ :=
  if 0 ≤ x.e then (x.m : ℚ) * 2 ^ x.e.toNat else (x.m : ℚ) / 2 ^ (-x.e).toNat

/-- Comparison of two non-negative binary64 values, by cross-multiplied
natural-number comparison of the significands. -/
def dblLe (x y : Dbl) : Bool :=
  if x.e ≤ y.e then x.m ≤ y.m * 2 ^ (y.e - x.e).toNat
  else x.m * 2 ^ (x.e - y.e).toNat ≤ y.m

/-- Char-list version of: the first list is an initial segment of the
second. -/
def lcStarts : List Char → List Char → Bool
  | [], _ => true
  | _ :: _, [] => false
  | a :: n, b :: h => a == b && lcStarts n h

/-- Char-list version of: the first list occurs contiguously inside the
second. -/
def lcHas : List Char → List Char → Bool
  | n, [] => n.isEmpty
  | n, b :: t => lcStarts n (b :: t) || lcHas n t

/-- SQL `column ILIKE '%needle%'`: case-insensitive containment of needle
in hay. -/
def substrCI (needle hay : String) : Bool :=
  lcHas (needle.data.map Char.toLower) (hay.data.map Char.toLower)

/-- Row of the related_jobs table (app/models/related_job.py): position is
required, the descriptive columns are nullable, is_active defaults true
(soft delete flag).  Timestamps are not modelled. -/
structure RelatedJob where
  id : ℕ
  position : String
  company : Option String := none
  description : Option String := none
  job_type : Option String := none
  experience_level : Option String := none
  industry : Option String := none
  skills_required : Option String := none
  is_active : Bool := true
deriving DecidableEq, Repr

/-- Row of the lessons table (app/models/lesson.py) together with this
lesson's rows of the lesson_related_job_relations association table,
kept as the list of related-job ids.  The model defines no lesson_score
column.  Timestamps are not modelled. -/
structure Lesson where
  id : ℕ
  title : String
  description : Option String := none
  summary : Option String := none
  content : Option String := none
  category : String
  filename : Option String := none
  duration_minutes : Option ℕ := none
  difficulty_level : String := "beginner"
  is_published : Bool := false
  instructor_id : Option ℕ := none
  related_job_ids : List ℕ := []
deriving DecidableEq, Repr

/-- Modelled from the spec: the users table (app/models/user.py is not part
of the provided sources; its columns are fixed by section 3 of the spec and
by the UserResponse/UserProfile schemas): unique email and username, an
active flag, and the non-negative cumulative counters lessons_completed and
total_lesson_score. -/
structure User where
  id : ℕ
  email : String
  username : String
  is_active : Bool := true
  lessons_completed : ℕ := 0
  total_lesson_score : ℕ := 0
deriving DecidableEq, Repr

/-- The relational store: one list per table, in insertion order, plus the
autoincrement counters for the two tables this core inserts into. -/
structure DB where
  users : List User
  lessons : List Lesson
  jobs : List RelatedJob
  nextJobId : ℕ
  nextLessonId : ℕ
deriving DecidableEq, Repr

/-- SQLAlchemy filter `RelatedJob.position.ilike(f"%{position}%")` plus,
when the company argument is truthy (non-None and non-empty, Python
`if company:`), `RelatedJob.company.ilike(f"%{company}%")`; a NULL company
column never matches the company pattern. -/
def jobMatches (position : String) (company : Option String) (j : RelatedJob) : Bool :=
  substrCI position j.position &&
    match company with
    | none => true
    | some c =>
      if c.isEmpty then true
      else match j.company with
           | none => false
           | some jc => substrCI c jc

/-- get_related_job_by_position (app/crud/related_job.py): first row of the
related_jobs table matching the case-insensitive substring filters. -/
def get_related_job_by_position (db : DB) (position : String)
    (company : Option String := none) : Option RelatedJob :=
  (db.jobs.filter (jobMatches position company)).head?

/-- create_related_job (app/crud/related_job.py), at the resolver call
site: the RelatedJobCreate payload carries only position and company, so
every other nullable column keeps its default and is_active defaults
true. -/
def create_related_job (db : DB) (position : String) (company : Option String) :
    RelatedJob × DB :=
  let j : RelatedJob := { id := db.nextJobId, position := position, company := company }
  (j, { db with jobs := db.jobs ++ [j], nextJobId := db.nextJobId + 1 })

/-- find_or_create_related_job (app/crud/related_job.py): return the first
fuzzy match, else insert a fresh row. -/
def find_or_create_related_job (db : DB) (position : String)
    (company : Option String := none) : RelatedJob × DB :=
  match get_related_job_by_position db position company with
  | some j => (j, db)
  | none => create_related_job db position company

/-- delete_related_job (app/crud/related_job.py): soft delete, setting
is_active to false on the row with the given primary key. -/
def delete_related_job (db : DB) (related_job_id : ℕ) : Bool × DB :=
  if db.jobs.any (fun j => j.id == related_job_id) then
    let jobs' := db.jobs.map
      (fun j => if j.id == related_job_id then { j with is_active := false } else j)
    (true, { db with jobs := jobs' })
  else (false, db)

/-- Python dict insertion `d[key x] = x`: overwrite the value at an
existing key in place, otherwise append. -/
def dictUpsert (keyEq : α → α → Bool) (acc : List α) (x : α) : List α :=
  if acc.any (keyEq x) then acc.map (fun y => if keyEq x y then x else y)
  else acc ++ [x]

/-- Python `{job.id: job for job in jobs}.values()`: de-duplicate by id,
keeping the first position of each id. -/
def dedupById (jobs : List RelatedJob) : List RelatedJob :=
  jobs.foldl (dictUpsert (fun a b => a.id == b.id)) []

/-- find_or_create_related_jobs_from_positions (app/crud/lesson.py):
resolve each truthy, non-blank position string through the resolver,
threading the store. -/
def find_or_create_related_jobs_from_positions :
    DB → List String → List RelatedJob × DB
  | db, [] => ([], db)
  | db, p :: rest =>
    if p.isEmpty || p.trim.isEmpty then
      find_or_create_related_jobs_from_positions db rest
    else
      let r := find_or_create_related_job db p.trim
      let rest' := find_or_create_related_jobs_from_positions r.2 rest
      (r.1 :: rest'.1, rest'.2)

/-- Related-job collection shared by create_lesson and update_lesson: rows
looked up by the given ids (Python `if related_job_ids:` skips None and the
empty list; unknown ids are silently dropped by the IN filter), followed by
rows resolved from the position strings (Python `if related_job_positions:`
likewise skips None and the empty list). -/
def collectRelatedJobs (db : DB) (ids : Option (List ℕ))
    (positions : Option (List String)) : List RelatedJob × DB :=
  let idJobs := match ids with
    | some l => if l.isEmpty then [] else db.jobs.filter (fun j => l.contains j.id)
    | none => []
  let pos := match positions with
    | some l => if l.isEmpty then ([], db)
                else find_or_create_related_jobs_from_positions db l
    | none => ([], db)
  (idJobs ++ pos.1, pos.2)

/-- LessonCreate (app/schemas/lesson.py).  The two related-job inputs
default to present-and-empty lists. -/
structure LessonCreate where
  title : String
  description : Option String := none
  summary : Option String := none
  category : String
  filename : Option String := none
  duration_minutes : Option ℕ := none
  difficulty_level : String := "beginner"
  is_published : Bool := false
  instructor_id : Option ℕ := none
  related_job_ids : Option (List ℕ) := some []
  related_job_positions : Option (List String) := some []
deriving DecidableEq, Repr

/-- LessonUpdate (app/schemas/lesson.py) under
`dict(exclude_unset=True)`: none means the field was omitted from the
update payload. -/
structure LessonUpdate where
  title : Option String := none
  description : Option String := none
  summary : Option String := none
  category : Option String := none
  filename : Option String := none
  duration_minutes : Option ℕ := none
  difficulty_level : Option String := none
  is_published : Option Bool := none
  instructor_id : Option ℕ := none
  related_job_ids : Option (List ℕ) := none
  related_job_positions : Option (List String) := none
deriving DecidableEq, Repr

/-- Payload value for a nullable column: present wins, absent keeps the
stored value. -/
def setOpt (upd old : Option α) : Option α :=
  match upd with
  | some v => some v
  | none => old

/-- setattr loop of update_lesson over the scalar fields present in the
update payload. -/
def applyLessonFields (l : Lesson) (lu : LessonUpdate) : Lesson :=
  { l with
    title := lu.title.getD l.title
    description := setOpt lu.description l.description
    summary := setOpt lu.summary l.summary
    category := lu.category.getD l.category
    filename := setOpt lu.filename l.filename
    duration_minutes := setOpt lu.duration_minutes l.duration_minutes
    difficulty_level := lu.difficulty_level.getD l.difficulty_level
    is_published := lu.is_published.getD l.is_published
    instructor_id := setOpt lu.instructor_id l.instructor_id }

/-- create_lesson (app/crud/lesson.py).  LessonCreate carries no
lesson_score key, so the negative-score ValueError branch is unreachable.
The lesson row is flushed (gets its id) before position strings are
resolved; if the collected union is non-empty it is de-duplicated by id and
becomes the association set, otherwise the association set stays empty. -/
def create_lesson (db : DB) (lc : LessonCreate) : Lesson × DB :=
  let l0 : Lesson :=
    { id := db.nextLessonId
      title := lc.title
      description := lc.description
      summary := lc.summary
      category := lc.category
      filename := lc.filename
      duration_minutes := lc.duration_minutes
      difficulty_level := lc.difficulty_level
      is_published := lc.is_published
      instructor_id := lc.instructor_id
      related_job_ids := [] }
  let c := collectRelatedJobs db lc.related_job_ids lc.related_job_positions
  let l1 := if c.1.isEmpty then l0
            else { l0 with related_job_ids := (dedupById c.1).map (·.id) }
  (l1, { c.2 with lessons := c.2.lessons ++ [l1], nextLessonId := db.nextLessonId + 1 })

/-- update_lesson (app/crud/lesson.py): apply the scalar fields, then sync
the association set only when at least one of the two related-job inputs is
present in the payload; a non-empty collected union replaces the set
wholesale, an empty union clears it. -/
def update_lesson (db : DB) (lesson_id : ℕ) (lu : LessonUpdate) :
    Option Lesson × DB :=
  match db.lessons.find? (fun l => l.id == lesson_id) with
  | none => (none, db)
  | some l =>
    let l1 := applyLessonFields l lu
    if lu.related_job_ids.isSome || lu.related_job_positions.isSome then
      let c := collectRelatedJobs db lu.related_job_ids lu.related_job_positions
      let l2 := if c.1.isEmpty then { l1 with related_job_ids := [] }
                else { l1 with related_job_ids := (dedupById c.1).map (·.id) }
      let lessons' := c.2.lessons.map (fun x => if x.id == lesson_id then l2 else x)
      (some l2, { c.2 with lessons := lessons' })
    else
      let lessons' := db.lessons.map (fun x => if x.id == lesson_id then l1 else x)
      (some l1, { db with lessons := lessons' })

/-- Result dictionary of complete_lesson_for_user.  The success shape
mirrors the keys built at the end of the source function; under the current
Lesson model it is unreachable (see complete_lesson_for_user). -/
inductive CompleteRes where
  | failure (message : String)
  | success (lesson_title : String) (points_earned : ℤ)
      (total_lessons_completed : ℕ) (total_score : ℕ) (message : String)
deriving DecidableEq, Repr

/-- complete_lesson_for_user (app/crud/lesson.py): look up the lesson, then
the user, returning a structured failure dict if either is absent.  When
both exist the source reads `lesson.lesson_score`, but the Lesson model
(app/models/lesson.py) declares no such column, so the attribute access
raises AttributeError before any counter is touched. -/
def complete_lesson_for_user (db : DB) (user_id lesson_id : ℕ) :
    Except String (CompleteRes × DB) :=
  match db.lessons.find? (fun l => l.id == lesson_id) with
  | none => .ok (.failure "Lesson not found", db)
  | some _lesson =>
    match db.users.find? (fun u => u.id == user_id) with
    | none => .ok (.failure "User not found", db)
    | some _user =>
      .error "AttributeError: Lesson object has no attribute lesson_score"

/-- Insert a after every already-placed element b with le b a: the
insertion step of a stable sort. -/
def insertSorted (le : α → α → Bool) (a : α) : List α → List α
  | [] => [a]
  | b :: t => if le b a then b :: insertSorted le a t else a :: b :: t

/-- Stable sort by a total boolean preorder, as performed by the store's
ORDER BY and by Python list.sort: equal elements keep their original
relative order. -/
def sortBy (le : α → α → Bool) (l : List α) : List α :=
  l.foldl (fun acc a => insertSorted le a acc) []

/-- ORDER BY total_lesson_score DESC, lessons_completed DESC as a boolean
comparison. -/
def leGlobal (u v : User) : Bool :=
  decide (v.total_lesson_score < u.total_lesson_score ∨
    (u.total_lesson_score = v.total_lesson_score ∧
      v.lessons_completed ≤ u.lessons_completed))

/-- Active users with at least one completion, globally ranked: the query
shared by get_top_performers and get_top_performers_by_related_jobs. -/
def rankedUsers (db : DB) : List User :=
  sortBy leGlobal
    (db.users.filter (fun u => u.is_active && decide (0 < u.lessons_completed)))

/-- Leaderboard entry of get_top_performers (created_at not modelled). -/
structure PerformerEntry where
  id : ℕ
  username : String
  lessons_completed : ℕ
  total_lesson_score : ℕ
  average_score : Dbl
deriving DecidableEq, Repr

/-- Entry dictionary built by get_top_performers for one user. -/
def mkPerformerEntry (u : User) : PerformerEntry :=
  { id := u.id, username := u.username,
    lessons_completed := u.lessons_completed,
    total_lesson_score := u.total_lesson_score,
    average_score := if 0 < u.lessons_completed then
        pyDiv u.total_lesson_score u.lessons_completed
      else ⟨0, 0⟩ }

/-- get_top_performers (app/crud/user.py). -/
def get_top_performers (db : DB) (limit : ℕ) : List PerformerEntry :=
  ((rankedUsers db).take limit).map mkPerformerEntry

/-- get_leaderboard (app/api/auth.py): clamp the caller-supplied limit to
50, then delegate; the endpoint returns the performer list under the
top_performers key. -/
def get_leaderboard (db : DB) (limit : ℕ) : List PerformerEntry :=
  get_top_performers db (if 50 < limit then 50 else limit)

/-- Rows of the lessons table associated to a given related-job id through
the lesson_related_job_relations table, counted. -/
def jobLessonCount (db : DB) (jid : ℕ) : ℕ :=
  (db.lessons.filter (fun l => l.related_job_ids.contains jid)).length

/-- Per-job performer entry of get_top_performers_by_related_jobs
(created_at not modelled). -/
structure JobPerformerEntry where
  id : ℕ
  username : String
  lessons_completed : ℕ
  total_lesson_score : ℕ
  job_specific_score : Dbl
  average_score : Dbl
  related_lessons_count : ℕ
deriving DecidableEq, Repr

/-- job_info dictionary of get_top_performers_by_related_jobs. -/
structure JobInfo where
  id : ℕ
  position : String
  company : Option String
  job_type : Option String
  experience_level : Option String
  industry : Option String
  related_lessons_count : ℕ
deriving DecidableEq, Repr

/-- Value stored under one job position key by
get_top_performers_by_related_jobs. -/
structure JobGroup where
  job_info : JobInfo
  top_performers : List JobPerformerEntry
deriving DecidableEq, Repr

/-- Candidate pool of get_top_performers_by_related_jobs: the globally
ranked active users with completions, oversampled to twice the per-job
limit. -/
def candidatePool (db : DB) (limit_per_job : ℕ) : List User :=
  (rankedUsers db).take (limit_per_job * 2)

/-- Performer entry for one candidate user: the heuristic per-job score is
`total_lesson_score * (cnt / max(lessons_completed, 1))` in float
arithmetic, stored rounded to one decimal digit. -/
def mkJobPerformer (cnt : ℕ) (u : User) : JobPerformerEntry :=
  { id := u.id, username := u.username,
    lessons_completed := u.lessons_completed,
    total_lesson_score := u.total_lesson_score,
    job_specific_score :=
      dblRound1 (pyMul u.total_lesson_score
        (pyDiv cnt (Nat.max u.lessons_completed 1))),
    average_score := if 0 < u.lessons_completed then
        pyDiv u.total_lesson_score u.lessons_completed
      else ⟨0, 0⟩,
    related_lessons_count := cnt }

/-- Sort key `x["job_specific_score"]` with reverse=True. -/
def leScore (a b : JobPerformerEntry) : Bool :=
  dblLe b.job_specific_score a.job_specific_score

/-- Loop body of get_top_performers_by_related_jobs for one active job:
skip jobs with no associated lesson, rank the oversampled candidate pool by
rounded per-job score, truncate, and skip jobs whose performer list is
empty. -/
def jobGroup (db : DB) (limit_per_job : ℕ) (job : RelatedJob) :
    Option (String × JobGroup) :=
  let cnt := jobLessonCount db job.id
  if cnt = 0 then none
  else
    let performers :=
      (sortBy leScore
        ((candidatePool db limit_per_job).map (mkJobPerformer cnt))).take limit_per_job
    if performers.isEmpty then none
    else
      let info : JobInfo :=
        { id := job.id
          position := job.position
          company := job.company
          job_type := job.job_type
          experience_level := job.experience_level
          industry := job.industry
          related_lessons_count := cnt }
      some (job.position, { job_info := info, top_performers := performers })

/-- get_top_performers_by_related_jobs (app/crud/user.py): iterate the
active related jobs in table order, building the position-keyed result
dictionary. -/
def get_top_performers_by_related_jobs (db : DB) (limit_per_job : ℕ) :
    List (String × JobGroup) :=
  ((db.jobs.filter (·.is_active)).filterMap (jobGroup db limit_per_job)).foldl
    (dictUpsert (fun a b => a.1 == b.1)) []

/-- job_info dictionary of get_user_best_job_performance. -/
structure BestJobInfo where
  id : ℕ
  position : String
  company : Option String
  job_type : Option String
  experience_level : Option String
  industry : Option String
deriving DecidableEq, Repr

/-- performance dictionary of get_user_best_job_performance. -/
structure BestJobPerformance where
  total_job_score : ℕ
  completed_lessons : ℕ
  average_score : Dbl
  related_lessons_available : ℕ
deriving DecidableEq, Repr

/-- Result of get_user_best_job_performance. -/
structure BestJobResult where
  job_info : BestJobInfo
  performance : BestJobPerformance
deriving DecidableEq, Repr

/-- ORDER BY related_lessons_count DESC as a boolean comparison. -/
def leCount (a b : RelatedJob × ℕ) : Bool := decide (b.2 ≤ a.2)

/-- Inner join of related_jobs with the association table, grouped by job
with the association rows counted: only jobs with at least one associated
lesson survive the join. -/
def jobsWithLessonCounts (db : DB) : List (RelatedJob × ℕ) :=
  (db.jobs.map (fun j => (j, jobLessonCount db j.id))).filter
    (fun p => decide (0 < p.2))

/-- get_user_best_job_performance (app/crud/user.py): not-found when the
user is absent or has no completions or no job has an associated lesson;
otherwise the job with the most associated lessons, with the estimated
figures `int(total_lesson_score * 0.7)` and
`max(1, int(lessons_completed * 0.6))`. -/
def get_user_best_job_performance (db : DB) (user_id : ℕ) :
    Option BestJobResult :=
  match db.users.find? (fun u => u.id == user_id) with
  | none => none
  | some user =>
    if user.lessons_completed = 0 then none
    else
      match (sortBy leCount (jobsWithLessonCounts db)).head? with
      | none => none
      | some jc =>
        let info : BestJobInfo :=
          { id := jc.1.id
            position := jc.1.position
            company := jc.1.company
            job_type := jc.1.job_type
            experience_level := jc.1.experience_level
            industry := jc.1.industry }
        let perf : BestJobPerformance :=
          { total_job_score := dblInt (pyMul user.total_lesson_score py07)
            completed_lessons := Nat.max 1 (dblInt (pyMul user.lessons_completed py06))
            average_score :=
              if 0 < user.lessons_completed then
                pyDiv user.total_lesson_score user.lessons_completed
              else ⟨0, 0⟩
            related_lessons_available := jc.2 }
        some { job_info := info, performance := perf }

/-- Two-row store for exercising the resolver lookup order: an active
match inserted before a soft-deleted match. -/
def dbEng : DB :=
  { users := [], lessons := []
    jobs := [{ id := 1, position := "Engineer" },
             { id := 2, position := "Software Engineer", is_active := false }]
    nextJobId := 3, nextLessonId := 1 }

/-- One-row store whose only row is a soft-deleted match. -/
def dbSoft : DB :=
  { users := [], lessons := []
    jobs := [{ id := 2, position := "Software Engineer", is_active := false }]
    nextJobId := 3, nextLessonId := 1 }

/-- A store with one user, one lesson associated to job 7, and that job. -/
def dbMain : DB :=
  { users := [{ id := 1, email := "u@example.com", username := "u",
                lessons_completed := 4, total_lesson_score := 120 }]
    lessons := [{ id := 1, title := "Tables", category := "Data",
                  related_job_ids := [7] }]
    jobs := [{ id := 7, position := "Data Analyst" }]
    nextJobId := 8, nextLessonId := 2 }

/-- A creation payload mixing duplicate and unknown explicit ids with a
position string that fuzzily resolves to the existing job 7. -/
def lcW : LessonCreate :=
  { title := "Charts", category := "Data"
    related_job_ids := some [7, 7, 99]
    related_job_positions := some ["data analyst"] }

/-- The single user of dbMain, and their leaderboard entry. -/
def userW : User :=
  { id := 1, email := "u@example.com", username := "u",
    lessons_completed := 4, total_lesson_score := 120 }

/-- A store whose single user has an odd total score (5) and 2
completions, exposing the truncation in the estimated best-job figures. -/
def dbOdd : DB :=
  { users := [{ id := 1, email := "o@x", username := "o",
                lessons_completed := 2, total_lesson_score := 5 }]
    lessons := [{ id := 1, title := "T", category := "c",
                  related_job_ids := [7] }]
    jobs := [{ id := 7, position := "Data Analyst" }]
    nextJobId := 8, nextLessonId := 2 }

/-- A store whose single user has total score 1 and 3 completions,
exposing the one-decimal rounding of the stored per-job score. -/
def dbThird : DB :=
  { users := [{ id := 1, email := "t@x", username := "t",
                lessons_completed := 3, total_lesson_score := 1 }]
    lessons := [{ id := 1, title := "T", category := "c",
                  related_job_ids := [7] }]
    jobs := [{ id := 7, position := "Data Analyst" }]
    nextJobId := 8, nextLessonId := 2 }

/-- The single group returned by the per-job leaderboard on dbMain. -/
def prW : String × JobGroup :=
  ("Data Analyst",
    { job_info := { id := 7, position := "Data Analyst", company := none, job_type := none, experience_level := none, industry := none, related_lessons_count := 1 }
      top_performers := [{ id := 1, username := "u", lessons_completed := 4, total_lesson_score := 120, job_specific_score := ⟨8444249301319680, -48⟩, average_score := ⟨8444249301319680, -48⟩, related_lessons_count := 1 }] })

/-- A character list is an initial segment of itself. -/
lemma lcStarts_refl (l : List Char) : lcStarts l l = true := by
  induction l with
  | nil => rfl
  | cons a t ih => simp [lcStarts, ih]

/-- Every string case-insensitively contains itself. -/
lemma substrCI_self (s : String) : substrCI s s = true := by
  unfold substrCI
  cases h : s.data.map Char.toLower with
  | nil => simp [lcHas]
  | cons a t => simp [lcHas, lcStarts_refl]

/-- A freshly created row with the given position and company matches the
resolver lookup for that position and company. -/
lemma jobMatches_self (p : String) (c : Option String) (j : RelatedJob)
    (hp : j.position = p) (hc : j.company = c) : jobMatches p c j = true := by
  cases c with
  | none => simp [jobMatches, hp, substrCI_self]
  | some cs =>
    simp only [jobMatches, hp, substrCI_self, hc, Bool.true_and]
    by_cases hcs : cs.isEmpty
    · simp [hcs]
    · simp [hcs, substrCI_self]

/-- When the first filtered element is absent, nothing in the list passes
the filter. -/
lemma filter_head?_none {α} {p : α → Bool} {l : List α}
    (h : (l.filter p).head? = none) : ∀ x ∈ l, p x = false := by
  have hnil : l.filter p = [] := List.head?_eq_none_iff.mp h
  intro x hx
  have h2 := List.filter_eq_nil_iff.mp hnil x hx
  simp only [Bool.not_eq_true] at h2
  exact h2

/-- First-match decomposition: if the head of the filtered list is x, then
x passes the filter and everything before its first occurrence fails it. -/
lemma filter_head?_some {α} {p : α → Bool} {l : List α} {x : α}
    (h : (l.filter p).head? = some x) :
    p x = true ∧ ∃ l1 l2, l = l1 ++ x :: l2 ∧ ∀ y ∈ l1, p y = false := by
  induction l with
  | nil => simp [List.filter] at h
  | cons a t ih =>
    by_cases hpa : p a = true
    · rw [List.filter_cons, if_pos hpa] at h
      have hax : a = x := by simpa using h
      subst hax
      exact ⟨hpa, [], t, rfl, by simp⟩
    · rw [List.filter_cons, if_neg hpa] at h
      obtain ⟨hx, l1, l2, hl, hl1⟩ := ih h
      refine ⟨hx, a :: l1, l2, by rw [hl]; rfl, ?_⟩
      intro y hy
      rcases List.mem_cons.mp hy with rfl | hy
      · cases hpy : p y
        · rfl
        · exact absurd hpy hpa
      · exact hl1 y hy

/-- C5: calling the resolver a second time with the same position string
(and company) and no intervening state change returns the same RelatedJob
id as the first call and creates no duplicate row (the store is unchanged);
in the creation case this holds because the new row's position
case-insensitively contains the query that created it. -/
theorem resolve_twice_same_id (db : DB) (p : String) (c : Option String) :
    (find_or_create_related_job (find_or_create_related_job db p c).2 p c).1.id
      = (find_or_create_related_job db p c).1.id ∧
    (find_or_create_related_job (find_or_create_related_job db p c).2 p c).2
      = (find_or_create_related_job db p c).2 := by
  cases hg : get_related_job_by_position db p c with
  | some j => simp [find_or_create_related_job, hg]
  | none =>
    have hfil : db.jobs.filter (jobMatches p c) = [] :=
      List.head?_eq_none_iff.mp hg
    have hmatch : jobMatches p c
        { id := db.nextJobId, position := p, company := c } = true :=
      jobMatches_self p c _ rfl rfl
    have hsecond : get_related_job_by_position
        { db with jobs := db.jobs ++ [{ id := db.nextJobId, position := p, company := c }]
                  nextJobId := db.nextJobId + 1 } p c
        = some { id := db.nextJobId, position := p, company := c } := by
      unfold get_related_job_by_position
      simp only [List.filter_append, hfil]
      simp [List.filter, hmatch]
    simp [find_or_create_related_job, hg, create_related_job, hsecond]

/-- C9: the resolver lookup is the first row matching a case-insensitive
substring filter on position, intersected with the company filter when one
is supplied; on a miss it inserts (and returns) a fresh active row carrying
exactly the given position and company with every other column
null/default, and in every case the prior rows are preserved (the operation
never deletes; it is total, so it never fails). -/
theorem find_or_create_spec (db : DB) (p : String) (c : Option String) :
    (∃ tail, (find_or_create_related_job db p c).2.jobs = db.jobs ++ tail) ∧
    (get_related_job_by_position db p c = none →
      (find_or_create_related_job db p c).1.position = p ∧
      (find_or_create_related_job db p c).1.company = c ∧
      (find_or_create_related_job db p c).1.is_active = true ∧
      (find_or_create_related_job db p c).1.description = none ∧
      (find_or_create_related_job db p c).1.job_type = none ∧
      (find_or_create_related_job db p c).1.experience_level = none ∧
      (find_or_create_related_job db p c).1.industry = none ∧
      (find_or_create_related_job db p c).1.skills_required = none ∧
      (find_or_create_related_job db p c).2.jobs
        = db.jobs ++ [(find_or_create_related_job db p c).1]) ∧
    (∀ j, get_related_job_by_position db p c = some j →
      find_or_create_related_job db p c = (j, db) ∧
      jobMatches p c j = true ∧
      ∃ l1 l2, db.jobs = l1 ++ j :: l2 ∧ ∀ x ∈ l1, jobMatches p c x = false) := by
  refine ⟨?_, ?_, ?_⟩
  · cases hg : get_related_job_by_position db p c with
    | some j => exact ⟨[], by simp [find_or_create_related_job, hg]⟩
    | none =>
      exact ⟨[{ id := db.nextJobId, position := p, company := c }],
        by simp [find_or_create_related_job, hg, create_related_job]⟩
  · intro hg
    simp [find_or_create_related_job, hg, create_related_job]
  · intro j hg
    refine ⟨by simp [find_or_create_related_job, hg], ?_, ?_⟩
    · exact (filter_head?_some hg).1
    · exact (filter_head?_some hg).2

/-- C9 witness: the lookup and creation branches at concrete stores.  On
dbEng the query "engineer" matches the first row in table order; on the
empty-table store dbSoft with query "analyst" a fresh default row is
created and appended. -/
theorem find_or_create_spec_witness :
    (find_or_create_related_job dbEng "engineer" none = ({ id := 1, position := "Engineer" }, dbEng)) ∧
    ((find_or_create_related_job dbSoft "Analyst" none).1.position = "Analyst" ∧
     (find_or_create_related_job dbSoft "Analyst" none).1.is_active = true ∧
     (find_or_create_related_job dbSoft "Analyst" none).2.jobs
       = dbSoft.jobs ++ [(find_or_create_related_job dbSoft "Analyst" none).1]) := by
  have h1 := (find_or_create_spec dbEng "engineer" none).2.2
    { id := 1, position := "Engineer" } (by decide)
  have h2 := (find_or_create_spec dbSoft "Analyst" none).2.1 (by decide)
  exact ⟨h1.1, h2.1, h2.2.2.1, h2.2.2.2.2.2.2.2.2⟩

/-- C10 counterexample: in the store dbEng a soft-deleted row (id 2,
"Software Engineer") case-insensitively contains the query "Engineer", yet
the resolver returns the active row id 1 that precedes it in table order,
not that inactive record — so the claim that resolve returns the matching
inactive record in any such state is false. -/
theorem resolver_inactive_counterexample :
    ({ id := 2, position := "Software Engineer", is_active := false } : RelatedJob) ∈ dbEng.jobs ∧
    substrCI "Engineer" "Software Engineer" = true ∧
    (find_or_create_related_job dbEng "Engineer" none).1.id = 1 ∧
    (find_or_create_related_job dbEng "Engineer" none).1.is_active = true ∧
    (find_or_create_related_job dbEng "Engineer" none).2 = dbEng ∧
    (find_or_create_related_job dbEng "Engineer" none).1
      ≠ { id := 2, position := "Software Engineer", is_active := false } := by decide

/-- C10 amended: the resolver lookup ignores the active flag — whenever the
first row matching the position query in table order is a soft-deleted
row, the resolver returns exactly that inactive record and creates nothing
(the store is unchanged), which is how soft-deleted jobs can reappear in
newly synced lesson associations. -/
theorem resolver_returns_inactive_first_match (db : DB) (p : String)
    (j : RelatedJob) (hg : get_related_job_by_position db p none = some j)
    (hinact : j.is_active = false) :
    find_or_create_related_job db p none = (j, db) ∧
    j ∈ db.jobs ∧ j.is_active = false := by
  obtain ⟨-, l1, l2, hdecomp, -⟩ := filter_head?_some hg
  refine ⟨by simp [find_or_create_related_job, hg], ?_, hinact⟩
  rw [hdecomp]
  exact List.mem_append.mpr (Or.inr (List.mem_cons_self _ _))

/-- C10 witness: on the store dbSoft whose only row is the soft-deleted
"Software Engineer", resolving "Engineer" returns that inactive row and
leaves the store unchanged. -/
theorem resolver_returns_inactive_first_match_witness :
    find_or_create_related_job dbSoft "Engineer" none
      = ({ id := 2, position := "Software Engineer", is_active := false }, dbSoft) ∧
    ({ id := 2, position := "Software Engineer", is_active := false } : RelatedJob) ∈ dbSoft.jobs ∧
    ({ id := 2, position := "Software Engineer", is_active := false } : RelatedJob).is_active = false := by
  exact resolver_returns_inactive_first_match dbSoft "Engineer" _ (by decide) (by decide)

/-- Replacing the value at a matching key leaves the id column of a row
list unchanged. -/
lemma ids_map_replace (acc : List RelatedJob) (a : RelatedJob) :
    (acc.map (fun y => if a.id == y.id then a else y)).map (fun j => j.id)
      = acc.map (fun j => j.id) := by
  rw [List.map_map]
  apply List.map_congr_left
  intro y _
  by_cases h : a.id == y.id
  · simp only [Function.comp_apply, if_pos h]
    exact (by simpa using h : a.id = y.id)
  · simp only [Function.comp_apply, if_neg h]

/-- Invariant of the Python dict-comprehension fold: the key column stays
duplicate-free and accumulates exactly the keys seen so far. -/
lemma foldl_dictUpsert_ids (l : List RelatedJob) (acc : List RelatedJob)
    (hacc : (acc.map (fun j => j.id)).Nodup) :
    ((l.foldl (dictUpsert fun a b => a.id == b.id) acc).map (fun j => j.id)).Nodup ∧
    ∀ i, i ∈ (l.foldl (dictUpsert fun a b => a.id == b.id) acc).map (fun j => j.id) ↔
      i ∈ acc.map (fun j => j.id) ∨ i ∈ l.map (fun j => j.id) := by
  induction l generalizing acc with
  | nil => exact ⟨hacc, fun i => by simp⟩
  | cons a t ih =>
    rw [List.foldl_cons]
    by_cases hmem : acc.any (fun y => a.id == y.id)
    · have hrepl : dictUpsert (fun a b => a.id == b.id) acc a
          = acc.map (fun y => if a.id == y.id then a else y) := by
        simp only [dictUpsert, if_pos hmem]
      have hids : (dictUpsert (fun a b => a.id == b.id) acc a).map (fun j => j.id)
          = acc.map (fun j => j.id) := by
        rw [hrepl, ids_map_replace]
      have haid : a.id ∈ acc.map (fun j => j.id) := by
        obtain ⟨y, hy, hbeq⟩ := List.any_eq_true.mp hmem
        exact List.mem_map.mpr ⟨y, hy, ((by simpa using hbeq : a.id = y.id)).symm⟩
      obtain ⟨h1, h2⟩ := ih (dictUpsert (fun a b => a.id == b.id) acc a)
        (hids ▸ hacc)
      refine ⟨h1, fun i => ?_⟩
      rw [h2 i, hids]
      simp only [List.map_cons, List.mem_cons]
      constructor
      · rintro (h | h)
        · exact Or.inl h
        · exact Or.inr (Or.inr h)
      · rintro (h | rfl | h)
        · exact Or.inl h
        · exact Or.inl haid
        · exact Or.inr h
    · have happ : dictUpsert (fun a b => a.id == b.id) acc a = acc ++ [a] := by
        simp only [dictUpsert, if_neg hmem]
      have haid : a.id ∉ acc.map (fun j => j.id) := by
        intro hc
        obtain ⟨y, hy, hyid⟩ := List.mem_map.mp hc
        exact hmem (List.any_eq_true.mpr ⟨y, hy, by simp [hyid]⟩)
      have hids : (dictUpsert (fun a b => a.id == b.id) acc a).map (fun j => j.id)
          = acc.map (fun j => j.id) ++ [a.id] := by
        rw [happ]; simp
      obtain ⟨h1, h2⟩ := ih (dictUpsert (fun a b => a.id == b.id) acc a)
        (by
          rw [hids, List.nodup_append]
          exact ⟨hacc, List.nodup_singleton _, by
            intro x hx hx2
            simp only [List.mem_singleton] at hx2
            exact haid (hx2 ▸ hx)⟩)
      refine ⟨h1, fun i => ?_⟩
      rw [h2 i, hids]
      simp only [List.mem_append, List.mem_singleton, List.map_cons, List.mem_cons]
      tauto

/-- The id list produced by dedupById has no duplicates. -/
lemma dedupById_ids_nodup (l : List RelatedJob) :
    ((dedupById l).map (fun j => j.id)).Nodup :=
  (foldl_dictUpsert_ids l [] (by simp)).1

/-- dedupById preserves the set of ids. -/
lemma mem_dedupById_ids (l : List RelatedJob) (i : ℕ) :
    i ∈ (dedupById l).map (fun j => j.id) ↔ i ∈ l.map (fun j => j.id) := by
  have := (foldl_dictUpsert_ids l [] (by simp)).2 i
  simpa [dedupById] using this

/-- C1: during lesson update the two inputs are presence-aware (the
LessonUpdate payload is read with exclude_unset, so the caller contract
distinguishes omitted fields from explicit empty lists): when both
related-job inputs are omitted the stored lesson keeps its association set
unchanged, and when both are present as explicit empty lists the
association set is cleared to empty. -/
theorem update_omitted_vs_explicit_empty (db : DB) (lesson_id : ℕ) (l : Lesson)
    (hfind : db.lessons.find? (fun x => x.id == lesson_id) = some l) :
    (∀ lu : LessonUpdate, lu.related_job_ids = none →
      lu.related_job_positions = none →
      ∃ l', (update_lesson db lesson_id lu).1 = some l' ∧
        l'.related_job_ids = l.related_job_ids) ∧
    (∀ lu : LessonUpdate, lu.related_job_ids = some [] →
      lu.related_job_positions = some [] →
      ∃ l', (update_lesson db lesson_id lu).1 = some l' ∧
        l'.related_job_ids = []) := by
  constructor
  · intro lu h1 h2
    refine ⟨applyLessonFields l lu, ?_, rfl⟩
    simp [update_lesson, hfind, h1, h2]
  · intro lu h1 h2
    refine ⟨{ applyLessonFields l lu with related_job_ids := [] }, ?_, rfl⟩
    simp [update_lesson, hfind, h1, h2, collectRelatedJobs]

/-- C1 witness: updating lesson 1 of dbMain with an empty payload keeps its
association set [7]; updating it with explicit empty id and position lists
clears the association set. -/
theorem update_omitted_vs_explicit_empty_witness :
    (∃ l', (update_lesson dbMain 1 {}).1 = some l' ∧
      l'.related_job_ids = [7]) ∧
    (∃ l', (update_lesson dbMain 1
        { related_job_ids := some [], related_job_positions := some [] }).1 = some l' ∧
      l'.related_job_ids = []) := by
  have h := update_omitted_vs_explicit_empty dbMain 1
    { id := 1, title := "Tables", category := "Data", related_job_ids := [7] }
    (by decide)
  exact ⟨h.1 {} rfl rfl, h.2 _ rfl rfl⟩

/-- C3: on lesson create and on lesson update (when at least one related-job
input is present), if the collected union — rows looked up by the given ids
(unknown ids silently ignored) followed by rows resolved from the non-blank
position strings — is non-empty, the stored association set is exactly that
union de-duplicated by RelatedJob id: it is duplicate-free, contains
precisely the union's ids, and previously associated ids outside the union
are dropped. -/
theorem sync_union_replaces (db : DB) :
    (∀ lc : LessonCreate,
      (collectRelatedJobs db lc.related_job_ids lc.related_job_positions).1 ≠ [] →
      (create_lesson db lc).1.related_job_ids.Nodup ∧
      ∀ i, i ∈ (create_lesson db lc).1.related_job_ids ↔
        i ∈ (collectRelatedJobs db lc.related_job_ids lc.related_job_positions).1.map
          (fun j => j.id)) ∧
    (∀ (lesson_id : ℕ) (l : Lesson) (lu : LessonUpdate),
      db.lessons.find? (fun x => x.id == lesson_id) = some l →
      (lu.related_job_ids.isSome ∨ lu.related_job_positions.isSome) →
      (collectRelatedJobs db lu.related_job_ids lu.related_job_positions).1 ≠ [] →
      ∃ l', (update_lesson db lesson_id lu).1 = some l' ∧
        l'.related_job_ids.Nodup ∧
        (∀ i, i ∈ l'.related_job_ids ↔
          i ∈ (collectRelatedJobs db lu.related_job_ids lu.related_job_positions).1.map
            (fun j => j.id)) ∧
        ∀ i ∈ l.related_job_ids,
          i ∉ (collectRelatedJobs db lu.related_job_ids lu.related_job_positions).1.map
            (fun j => j.id) →
          i ∉ l'.related_job_ids) := by
  constructor
  · intro lc hne
    have hemp : (collectRelatedJobs db lc.related_job_ids lc.related_job_positions).1.isEmpty
        = false := by
      cases hc : (collectRelatedJobs db lc.related_job_ids lc.related_job_positions).1 with
      | nil => exact absurd hc hne
      | cons a t => rfl
    constructor
    · have : (create_lesson db lc).1.related_job_ids
          = (dedupById (collectRelatedJobs db lc.related_job_ids lc.related_job_positions).1).map
            (fun j => j.id) := by
        simp [create_lesson, hemp]
      rw [this]
      exact dedupById_ids_nodup _
    · intro i
      have : (create_lesson db lc).1.related_job_ids
          = (dedupById (collectRelatedJobs db lc.related_job_ids lc.related_job_positions).1).map
            (fun j => j.id) := by
        simp [create_lesson, hemp]
      rw [this]
      exact mem_dedupById_ids _ i
  · intro lesson_id l lu hfind hpresent hne
    have hemp : (collectRelatedJobs db lu.related_job_ids lu.related_job_positions).1.isEmpty
        = false := by
      cases hc : (collectRelatedJobs db lu.related_job_ids lu.related_job_positions).1 with
      | nil => exact absurd hc hne
      | cons a t => rfl
    have hguard : (lu.related_job_ids.isSome || lu.related_job_positions.isSome) = true := by
      rcases hpresent with h | h <;> simp [h]
    refine ⟨{ applyLessonFields l lu with related_job_ids := (dedupById (collectRelatedJobs db lu.related_job_ids lu.related_job_positions).1).map (fun j => j.id) }, ?_, ?_, ?_, ?_⟩
    · simp [update_lesson, hfind, hguard, hemp]
    · exact dedupById_ids_nodup _
    · exact fun i => mem_dedupById_ids _ i
    · intro i _ hnotin hcontra
      exact hnotin ((mem_dedupById_ids _ i).mp hcontra)

/-- C3 witness: creating a lesson in dbMain from the payload lcW — explicit
ids [7, 7, 99] where 99 is unknown, plus the position "data analyst" which
resolves by substring to the existing job 7 — yields the duplicate-free
association set whose sole id is 7, and 99 is not in it. -/
theorem sync_union_replaces_witness :
    (create_lesson dbMain lcW).1.related_job_ids.Nodup ∧
    (7 ∈ (create_lesson dbMain lcW).1.related_job_ids ↔
      7 ∈ (collectRelatedJobs dbMain lcW.related_job_ids lcW.related_job_positions).1.map
        (fun j => j.id)) ∧
    (99 ∈ (create_lesson dbMain lcW).1.related_job_ids ↔
      99 ∈ (collectRelatedJobs dbMain lcW.related_job_ids lcW.related_job_positions).1.map
        (fun j => j.id)) := by
  have h := (sync_union_replaces dbMain).1 lcW (by decide)
  exact ⟨h.1, h.2 7, h.2 99⟩

/-- C2 (code defect, evaluated at the failing input): in dbMain both user 1
and lesson 1 exist, yet completing the lesson does not award any points —
it raises AttributeError, because complete_lesson_for_user reads
lesson.lesson_score while the Lesson model declares no lesson_score
column. -/
theorem complete_lesson_attribute_error :
    (dbMain.users.find? (fun u => u.id == 1)).isSome = true ∧
    (dbMain.lessons.find? (fun l => l.id == 1)).isSome = true ∧
    complete_lesson_for_user dbMain 1 1
      = .error "AttributeError: Lesson object has no attribute lesson_score" := by
  refine ⟨by decide, by decide, ?_⟩
  rfl

/-- C7: completing a lesson fails with a structured not-found result —
success false plus a human-readable message — whenever the lesson or the
user does not exist, and in that case the store is returned unchanged (no
counter is modified). -/
theorem complete_lesson_not_found (db : DB) (user_id lesson_id : ℕ) :
    (db.lessons.find? (fun l => l.id == lesson_id) = none →
      complete_lesson_for_user db user_id lesson_id
        = .ok (.failure "Lesson not found", db)) ∧
    (∀ l, db.lessons.find? (fun l2 => l2.id == lesson_id) = some l →
      db.users.find? (fun u => u.id == user_id) = none →
      complete_lesson_for_user db user_id lesson_id
        = .ok (.failure "User not found", db)) := by
  constructor
  · intro h
    simp [complete_lesson_for_user, h]
  · intro l h1 h2
    simp [complete_lesson_for_user, h1, h2]

/-- C7 witness: on dbMain, completing the missing lesson 99 and completing
lesson 1 for the missing user 99 both return the structured failure with
its message and leave the store unchanged. -/
theorem complete_lesson_not_found_witness :
    complete_lesson_for_user dbMain 1 99
      = .ok (.failure "Lesson not found", dbMain) ∧
    complete_lesson_for_user dbMain 99 1
      = .ok (.failure "User not found", dbMain) := by
  refine ⟨(complete_lesson_not_found dbMain 1 99).1 (by decide), ?_⟩
  exact (complete_lesson_not_found dbMain 99 1).2
    { id := 1, title := "Tables", category := "Data", related_job_ids := [7] }
    (by decide) (by decide)

/-- Inserting permutes to consing. -/
lemma insertSorted_perm (le : α → α → Bool) (a : α) :
    ∀ l : List α, (insertSorted le a l).Perm (a :: l) := by
  intro l
  induction l with
  | nil => exact List.Perm.refl _
  | cons b t ih =>
    by_cases h : le b a
    · simp only [insertSorted, if_pos h]
      exact (ih.cons b).trans (List.Perm.swap a b t)
    · simp only [insertSorted, if_neg h]
      exact List.Perm.refl _

/-- Inserting into a sorted list keeps it sorted, for a transitive total
boolean preorder. -/
lemma insertSorted_pairwise (le : α → α → Bool)
    (htrans : ∀ a b c, le a b = true → le b c = true → le a c = true)
    (htotal : ∀ a b, (le a b || le b a) = true)
    (a : α) (l : List α) (h : l.Pairwise (fun x y => le x y = true)) :
    (insertSorted le a l).Pairwise (fun x y => le x y = true) := by
  induction l with
  | nil => simp [insertSorted]
  | cons b t ih =>
    obtain ⟨hb, ht⟩ := List.pairwise_cons.mp h
    by_cases hba : le b a
    · simp only [insertSorted, if_pos hba]
      refine List.pairwise_cons.mpr ⟨?_, ih ht⟩
      intro x hx
      rcases List.mem_cons.mp (((insertSorted_perm le a t).mem_iff).mp hx) with rfl | hxt
      · exact hba
      · exact hb x hxt
    · simp only [insertSorted, if_neg hba]
      have hab : le a b = true := by
        have := htotal a b
        rcases Bool.or_eq_true _ _ |>.mp this with h1 | h1
        · exact h1
        · exact absurd h1 hba
      refine List.pairwise_cons.mpr ⟨?_, h⟩
      intro x hx
      rcases List.mem_cons.mp hx with rfl | hxt
      · exact hab
      · exact htrans a b x hab (hb x hxt)

/-- The insertion-sort fold permutes to appending the input. -/
lemma foldl_insertSorted_perm (le : α → α → Bool) :
    ∀ (l acc : List α),
      (l.foldl (fun acc a => insertSorted le a acc) acc).Perm (acc ++ l) := by
  intro l
  induction l with
  | nil => intro acc; simp
  | cons a t ih =>
    intro acc
    have h1 := ih (insertSorted le a acc)
    have h2 : (insertSorted le a acc ++ t).Perm ((a :: acc) ++ t) :=
      (insertSorted_perm le a acc).append_right t
    have h3 : ((a :: acc) ++ t).Perm (acc ++ a :: t) := by
      simpa using List.perm_middle.symm
    exact (h1.trans h2).trans h3

/-- Sorting permutes the list. -/
lemma sortBy_perm (le : α → α → Bool) (l : List α) : (sortBy le l).Perm l := by
  simpa [sortBy] using foldl_insertSorted_perm le l []

/-- Sorting yields a list pairwise ordered by the comparison, for a
transitive total boolean preorder. -/
lemma sortBy_pairwise (le : α → α → Bool)
    (htrans : ∀ a b c, le a b = true → le b c = true → le a c = true)
    (htotal : ∀ a b, (le a b || le b a) = true) (l : List α) :
    (sortBy le l).Pairwise (fun x y => le x y = true) := by
  have main : ∀ (l acc : List α), acc.Pairwise (fun x y => le x y = true) →
      (l.foldl (fun acc a => insertSorted le a acc) acc).Pairwise
        (fun x y => le x y = true) := by
    intro l
    induction l with
    | nil => intro acc h; exact h
    | cons a t ih =>
      intro acc h
      exact ih _ (insertSorted_pairwise le htrans htotal a acc h)
  exact main l [] (List.Pairwise.nil)

/-- Global ranking comparison is transitive. -/
lemma leGlobal_trans (a b c : User) (h1 : leGlobal a b = true)
    (h2 : leGlobal b c = true) : leGlobal a c = true := by
  simp only [leGlobal, decide_eq_true_eq] at *
  omega

/-- Global ranking comparison is total. -/
lemma leGlobal_total (a b : User) : (leGlobal a b || leGlobal b a) = true := by
  simp only [leGlobal, Bool.or_eq_true, decide_eq_true_eq]
  omega

/-- C4: the leaderboard endpoint clamps the caller-supplied limit to 50 and
returns at most that many entries; every entry comes from an active user
with at least one completion, carrying that user's id, username, counters
and the float quotient total_lesson_score / lessons_completed as
average_score; and the entries are lexicographically non-increasing in
(total_lesson_score, lessons_completed). -/
theorem global_leaderboard_spec (db : DB) (limit : ℕ) :
    (get_leaderboard db limit).length ≤ limit ∧
    (get_leaderboard db limit).length ≤ 50 ∧
    (∀ e ∈ get_leaderboard db limit, ∃ u ∈ db.users,
      u.is_active = true ∧ 0 < u.lessons_completed ∧
      e.id = u.id ∧ e.username = u.username ∧
      e.lessons_completed = u.lessons_completed ∧
      e.total_lesson_score = u.total_lesson_score ∧
      e.average_score = pyDiv u.total_lesson_score u.lessons_completed) ∧
    (get_leaderboard db limit).Pairwise (fun a b =>
      b.total_lesson_score < a.total_lesson_score ∨
      (a.total_lesson_score = b.total_lesson_score ∧
        b.lessons_completed ≤ a.lessons_completed)) := by
  refine ⟨?_, ?_, ?_, ?_⟩
  · simp only [get_leaderboard, get_top_performers, List.length_map,
      List.length_take]
    by_cases h : 50 < limit
    · simp only [if_pos h]
      omega
    · simp only [if_neg h]
      exact le_trans (Nat.min_le_left _ _) (le_refl _)
  · simp only [get_leaderboard, get_top_performers, List.length_map,
      List.length_take]
    by_cases h : 50 < limit
    · simp only [if_pos h]
      exact Nat.min_le_left _ _
    · simp only [if_neg h]
      exact le_trans (Nat.min_le_left _ _) (by omega)
  · intro e he
    simp only [get_leaderboard, get_top_performers] at he
    obtain ⟨u, hu, rfl⟩ := List.mem_map.mp he
    have hu2 : u ∈ rankedUsers db := List.mem_of_mem_take hu
    have hu3 : u ∈ db.users.filter
        (fun u => u.is_active && decide (0 < u.lessons_completed)) :=
      ((sortBy_perm leGlobal _).mem_iff).mp hu2
    obtain ⟨hmem, hpred⟩ := List.mem_filter.mp hu3
    rw [Bool.and_eq_true] at hpred
    obtain ⟨ha, hc⟩ := hpred
    have hcc : 0 < u.lessons_completed := of_decide_eq_true hc
    exact ⟨u, hmem, ha, hcc, rfl, rfl, rfl, rfl, by
      simp [mkPerformerEntry, hcc]⟩
  · have hp : ((rankedUsers db).take (if 50 < limit then 50 else limit)).Pairwise
        (fun u v => leGlobal u v = true) :=
      List.Pairwise.sublist (List.take_sublist _ _)
        (sortBy_pairwise leGlobal leGlobal_trans leGlobal_total _)
    simp only [get_leaderboard, get_top_performers, List.pairwise_map]
    refine hp.imp ?_
    intro u v h
    simpa [leGlobal, mkPerformerEntry] using h

/-- C4 witness: on dbMain with caller limit 100, the leaderboard has at
most min(100, 50) entries, and the entry of user 1 (which is in the
returned list) carries that user's fields with average score 120 / 4. -/
theorem global_leaderboard_spec_witness :
    (get_leaderboard dbMain 100).length ≤ 100 ∧
    (get_leaderboard dbMain 100).length ≤ 50 ∧
    (∃ u ∈ dbMain.users, u.is_active = true ∧ 0 < u.lessons_completed ∧
      (mkPerformerEntry userW).id = u.id ∧
      (mkPerformerEntry userW).username = u.username ∧
      (mkPerformerEntry userW).lessons_completed = u.lessons_completed ∧
      (mkPerformerEntry userW).total_lesson_score = u.total_lesson_score ∧
      (mkPerformerEntry userW).average_score
        = pyDiv u.total_lesson_score u.lessons_completed) := by
  have h := global_leaderboard_spec dbMain 100
  exact ⟨h.1, h.2.1, h.2.2.1 (mkPerformerEntry userW) (by decide)⟩

/-- The head of a list is a member. -/
lemma head?_some_mem {l : List α} {a : α} (h : l.head? = some a) : a ∈ l := by
  cases l with
  | nil => simp at h
  | cons b t =>
    simp only [List.head?_cons, Option.some.injEq] at h
    exact h ▸ List.mem_cons_self b t

/-- In a pairwise-ordered list the head dominates every member. -/
lemma pairwise_head?_forall {R : α → α → Prop} {l : List α} {a : α}
    (hp : l.Pairwise R) (h : l.head? = some a) : ∀ x ∈ l, x = a ∨ R a x := by
  cases l with
  | nil => simp at h
  | cons b t =>
    simp only [List.head?_cons, Option.some.injEq] at h
    subst h
    intro x hx
    rcases List.mem_cons.mp hx with rfl | hxt
    · exact Or.inl rfl
    · exact Or.inr ((List.pairwise_cons.mp hp).1 x hxt)

/-- Lesson-count ranking is transitive. -/
lemma leCount_trans (a b c : RelatedJob × ℕ) (h1 : leCount a b = true)
    (h2 : leCount b c = true) : leCount a c = true := by
  simp only [leCount, decide_eq_true_eq] at *
  omega

/-- Lesson-count ranking is total. -/
lemma leCount_total (a b : RelatedJob × ℕ) :
    (leCount a b || leCount b a) = true := by
  simp only [leCount, Bool.or_eq_true, decide_eq_true_eq]
  omega

/-- C8 counterexample: in dbOdd the user exists with total_lesson_score 5
and lessons_completed 2, and the returned performance figures are the
truncated ints 3 and 1 — not the claimed products 0.7 × 5 = 3.5 (neither as
the exact rational 7/2 nor as the float value of 5 * 0.7) and
max(1, 0.6 × 2) = 1.2. -/
theorem best_job_figures_counterexample :
    get_user_best_job_performance dbOdd 1
      = some { job_info := { id := 7, position := "Data Analyst", company := none, job_type := none, experience_level := none, industry := none }, performance := { total_job_score := 3, completed_lessons := 1, average_score := ⟨5629499534213120, -51⟩, related_lessons_available := 1 } } ∧
    ((3 : ℚ) ≠ (7 / 10) * 5 ∧ (3 : ℚ) ≠ dblToRat (pyMul 5 py07)) ∧
    (1 : ℚ) ≠ max 1 ((6 / 10) * 2) := by
  refine ⟨by decide, ⟨by norm_num, ?_⟩, ?_⟩
  · have h : pyMul 5 py07 = ⟨7881299347898368, -51⟩ := by decide
    rw [h]
    simp only [dblToRat]
    rw [if_neg (by norm_num : ¬ (0 : ℤ) ≤ (Dbl.mk 7881299347898368 (-51)).e)]
    rw [show ((-(Dbl.mk 7881299347898368 (-51)).e).toNat) = 51 from rfl]
    norm_num
  · rw [max_eq_right (by norm_num : (1 : ℚ) ≤ (6 / 10) * 2)]
    norm_num

/-- C8 amended: bestJobForUser returns not-found exactly when the user does
not exist, has zero completions, or no job has an associated lesson;
otherwise it returns a RelatedJob whose associated-lesson count is maximal
system-wide, with estimated_job_score the truncated int of
total_lesson_score * 0.7 and estimated_completed_lessons
max(1, truncated int of lessons_completed * 0.6), both computed in float
arithmetic. -/
theorem best_job_spec (db : DB) (user_id : ℕ) :
    (db.users.find? (fun u => u.id == user_id) = none →
      get_user_best_job_performance db user_id = none) ∧
    (∀ u, db.users.find? (fun u2 => u2.id == user_id) = some u →
      u.lessons_completed = 0 →
      get_user_best_job_performance db user_id = none) ∧
    (∀ u, db.users.find? (fun u2 => u2.id == user_id) = some u →
      (∀ j ∈ db.jobs, jobLessonCount db j.id = 0) →
      get_user_best_job_performance db user_id = none) ∧
    (∀ u j, db.users.find? (fun u2 => u2.id == user_id) = some u →
      u.lessons_completed ≠ 0 → j ∈ db.jobs → 0 < jobLessonCount db j.id →
      get_user_best_job_performance db user_id ≠ none) ∧
    (∀ u r, db.users.find? (fun u2 => u2.id == user_id) = some u →
      u.lessons_completed ≠ 0 →
      get_user_best_job_performance db user_id = some r →
      (∃ j ∈ db.jobs, r.job_info.id = j.id ∧ r.job_info.position = j.position ∧
        jobLessonCount db j.id = r.performance.related_lessons_available ∧
        0 < r.performance.related_lessons_available ∧
        ∀ j2 ∈ db.jobs, jobLessonCount db j2.id
          ≤ r.performance.related_lessons_available) ∧
      r.performance.total_job_score = dblInt (pyMul u.total_lesson_score py07) ∧
      r.performance.completed_lessons
        = Nat.max 1 (dblInt (pyMul u.lessons_completed py06))) := by
  refine ⟨?_, ?_, ?_, ?_, ?_⟩
  · intro h
    simp [get_user_best_job_performance, h]
  · intro u hu h0
    simp [get_user_best_job_performance, hu, h0]
  · intro u hu hz
    have hfil : jobsWithLessonCounts db = [] := by
      apply List.filter_eq_nil_iff.mpr
      intro p hp
      obtain ⟨j, hj, rfl⟩ := List.mem_map.mp hp
      simp [hz j hj]
    simp [get_user_best_job_performance, hu, hfil, sortBy]
  · intro u j hu h0 hj hcnt
    have hmem : (j, jobLessonCount db j.id) ∈ jobsWithLessonCounts db :=
      List.mem_filter.mpr ⟨List.mem_map.mpr ⟨j, hj, rfl⟩, by simpa using hcnt⟩
    have hmem2 : (j, jobLessonCount db j.id) ∈ sortBy leCount (jobsWithLessonCounts db) :=
      ((sortBy_perm leCount _).mem_iff).mpr hmem
    obtain ⟨jc, hjc⟩ : ∃ jc, (sortBy leCount (jobsWithLessonCounts db)).head? = some jc := by
      cases hs : sortBy leCount (jobsWithLessonCounts db) with
      | nil => rw [hs] at hmem2; simp at hmem2
      | cons a t => exact ⟨a, rfl⟩
    simp [get_user_best_job_performance, hu, if_neg h0, hjc]
  · intro u r hu h0 hr
    obtain ⟨jc, hjc⟩ : ∃ jc, (sortBy leCount (jobsWithLessonCounts db)).head? = some jc := by
      cases hs : (sortBy leCount (jobsWithLessonCounts db)).head? with
      | none => simp [get_user_best_job_performance, hu, if_neg h0, hs] at hr
      | some a => exact ⟨a, rfl⟩
    have hreq : r = { job_info := { id := jc.1.id, position := jc.1.position, company := jc.1.company, job_type := jc.1.job_type, experience_level := jc.1.experience_level, industry := jc.1.industry }, performance := { total_job_score := dblInt (pyMul u.total_lesson_score py07), completed_lessons := Nat.max 1 (dblInt (pyMul u.lessons_completed py06)), average_score := if 0 < u.lessons_completed then pyDiv u.total_lesson_score u.lessons_completed else ⟨0, 0⟩, related_lessons_available := jc.2 } } := by
      have h2 := hr
      simp only [get_user_best_job_performance, hu, if_neg h0, hjc] at h2
      exact Option.some.inj h2.symm
    have hjcmem : jc ∈ jobsWithLessonCounts db :=
      ((sortBy_perm leCount _).mem_iff).mp (head?_some_mem hjc)
    obtain ⟨hjcmap, hjcpos⟩ := List.mem_filter.mp hjcmem
    obtain ⟨j, hj, hjeq⟩ := List.mem_map.mp hjcmap
    have hdom := pairwise_head?_forall
      (sortBy_pairwise leCount leCount_trans leCount_total _) hjc
    refine ⟨⟨j, hj, ?_, ?_, ?_, ?_, ?_⟩, ?_, ?_⟩
    · rw [hreq]; rw [← hjeq]
    · rw [hreq]; rw [← hjeq]
    · rw [hreq]; rw [← hjeq]
    · rw [hreq]
      simpa using of_decide_eq_true hjcpos
    · intro j2 hj2
      rw [hreq]
      by_cases hz : jobLessonCount db j2.id = 0
      · simp [hz]
      · have hmem : (j2, jobLessonCount db j2.id) ∈ jobsWithLessonCounts db :=
          List.mem_filter.mpr ⟨List.mem_map.mpr ⟨j2, hj2, rfl⟩, by
            simp only [decide_eq_true_eq]
            omega⟩
        have hmem2 : (j2, jobLessonCount db j2.id) ∈ sortBy leCount (jobsWithLessonCounts db) :=
          ((sortBy_perm leCount _).mem_iff).mpr hmem
        rcases hdom _ hmem2 with heq | hle
        · simp [← heq]
        · have := of_decide_eq_true hle
          simpa using this
    · rw [hreq]
    · rw [hreq]

/-- C8 witness: on dbMain (user 1 with total 120 and 4 completions, job 7
with one associated lesson) the function returns the concrete result with
truncated figures int(120 * 0.7) = 84 and max(1, int(4 * 0.6)) = 2, and the
returned job's lesson count 1 is maximal. -/
theorem best_job_spec_witness :
    (∃ j ∈ dbMain.jobs,
      ({ id := 7, position := "Data Analyst", company := none, job_type := none, experience_level := none, industry := none } : BestJobInfo).id = j.id ∧
      ({ id := 7, position := "Data Analyst", company := none, job_type := none, experience_level := none, industry := none } : BestJobInfo).position = j.position ∧
      jobLessonCount dbMain j.id = 1 ∧ 0 < (1 : ℕ) ∧
      ∀ j2 ∈ dbMain.jobs, jobLessonCount dbMain j2.id ≤ 1) ∧
    (84 : ℕ) = dblInt (pyMul userW.total_lesson_score py07) ∧
    (2 : ℕ) = Nat.max 1 (dblInt (pyMul userW.lessons_completed py06)) := by
  have h := (best_job_spec dbMain 1).2.2.2.2 userW
    { job_info := { id := 7, position := "Data Analyst", company := none, job_type := none, experience_level := none, industry := none }, performance := { total_job_score := 84, completed_lessons := 2, average_score := ⟨8444249301319680, -48⟩, related_lessons_available := 1 } }
    (by decide) (by decide) (by decide)
  exact ⟨h.1, h.2.1, h.2.2⟩

/-- The branch-free form of the exact value of a binary64 number. -/
lemma dblToRat_eq (x : Dbl) : dblToRat x = (x.m : ℚ) * (2 : ℚ) ^ x.e := by
  unfold dblToRat
  by_cases h : 0 ≤ x.e
  · rw [if_pos h]
    congr 1
    rw [← zpow_natCast]
    congr 1
    exact Int.toNat_of_nonneg h
  · rw [if_neg h]
    rw [div_eq_mul_inv]
    congr 1
    rw [← zpow_natCast, ← zpow_neg]
    congr 1
    omega

/-- The significand cross-multiplication comparison agrees with the
rational order of the represented values. -/
lemma dblLe_iff (x y : Dbl) : dblLe x y = true ↔ dblToRat x ≤ dblToRat y := by
  rw [dblToRat_eq, dblToRat_eq]
  have h2 : (0 : ℚ) < 2 := by norm_num
  by_cases h : x.e ≤ y.e
  · have hexp : (2 : ℚ) ^ y.e = 2 ^ ((y.e - x.e).toNat) * 2 ^ x.e := by
      rw [← zpow_natCast (2 : ℚ) ((y.e - x.e).toNat),
        ← zpow_add₀ (by norm_num : (2 : ℚ) ≠ 0)]
      congr 1
      omega
    simp only [dblLe, if_pos h, decide_eq_true_eq]
    rw [hexp, ← mul_assoc]
    rw [mul_le_mul_right (zpow_pos h2 x.e)]
    exact_mod_cast Iff.rfl
  · have hexp : (2 : ℚ) ^ x.e = 2 ^ ((x.e - y.e).toNat) * 2 ^ y.e := by
      rw [← zpow_natCast (2 : ℚ) ((x.e - y.e).toNat),
        ← zpow_add₀ (by norm_num : (2 : ℚ) ≠ 0)]
      congr 1
      omega
    simp only [dblLe, if_neg h, decide_eq_true_eq]
    rw [hexp, ← mul_assoc]
    rw [mul_le_mul_right (zpow_pos h2 y.e)]
    exact_mod_cast Iff.rfl

/-- Per-job score ranking is transitive. -/
lemma leScore_trans (a b c : JobPerformerEntry) (h1 : leScore a b = true)
    (h2 : leScore b c = true) : leScore a c = true := by
  simp only [leScore, dblLe_iff] at *
  exact le_trans h2 h1

/-- Per-job score ranking is total. -/
lemma leScore_total (a b : JobPerformerEntry) :
    (leScore a b || leScore b a) = true := by
  simp only [leScore, Bool.or_eq_true, dblLe_iff]
  exact le_total _ _

/-- Members of the dict-building fold come from the seed or the input. -/
lemma mem_foldl_dictUpsert (keyEq : α → α → Bool) :
    ∀ (l acc : List α) (x : α),
      x ∈ l.foldl (dictUpsert keyEq) acc → x ∈ acc ∨ x ∈ l := by
  intro l
  induction l with
  | nil => intro acc x hx; exact Or.inl hx
  | cons a t ih =>
    intro acc x hx
    rw [List.foldl_cons] at hx
    rcases ih _ x hx with h | h
    · unfold dictUpsert at h
      split at h
      · obtain ⟨y, hy, hxy⟩ := List.mem_map.mp h
        by_cases hk : keyEq a y
        · rw [if_pos hk] at hxy
          exact Or.inr (hxy ▸ List.mem_cons_self a t)
        · rw [if_neg hk] at hxy
          exact Or.inl (hxy ▸ hy)
      · rcases List.mem_append.mp h with h2 | h2
        · exact Or.inl h2
        · simp only [List.mem_singleton] at h2
          exact Or.inr (h2 ▸ List.mem_cons_self a t)
    · exact Or.inr (List.mem_cons_of_mem _ h)

/-- C6 counterexample: in dbThird the sole candidate has total score 1 and
3 completions for a job with 1 associated lesson, and the published
per-job estimated score is the double 0.3 (the product rounded to one
decimal digit) — not 1 × (1/3), neither as the exact rational 1/3 nor as
the unrounded float product. -/
theorem job_score_rounding_counterexample :
    get_top_performers_by_related_jobs dbThird 5
      = [("Data Analyst",
          { job_info := { id := 7, position := "Data Analyst", company := none, job_type := none, experience_level := none, industry := none, related_lessons_count := 1 },
            top_performers := [{ id := 1, username := "t", lessons_completed := 3, total_lesson_score := 1, job_specific_score := ⟨5404319552844595, -54⟩, average_score := ⟨6004799503160661, -54⟩, related_lessons_count := 1 }] })] ∧
    dblToRat ⟨5404319552844595, -54⟩ ≠ (1 : ℚ) * ((1 : ℚ) / 3) ∧
    dblToRat ⟨5404319552844595, -54⟩ ≠ dblToRat (pyMul 1 (pyDiv 1 (Nat.max 3 1))) := by
  have hm : pyMul 1 (pyDiv 1 (Nat.max 3 1)) = ⟨6004799503160661, -54⟩ := by decide
  refine ⟨by decide, ?_, ?_⟩
  · rw [dblToRat_eq]
    rw [show ((⟨5404319552844595, -54⟩ : Dbl).e) = (-54 : ℤ) from rfl]
    rw [show ((⟨5404319552844595, -54⟩ : Dbl).m) = (5404319552844595 : ℕ) from rfl]
    rw [zpow_neg, show ((54 : ℤ)) = ((54 : ℕ) : ℤ) from rfl, zpow_natCast]
    norm_num
  · rw [hm, dblToRat_eq, dblToRat_eq]
    intro hc
    have h54 : ((5404319552844595 : ℕ) : ℚ) = (6004799503160661 : ℕ) := by
      have hpos : (0 : ℚ) < (2 : ℚ) ^ (-54 : ℤ) := zpow_pos (by norm_num) _
      exact_mod_cast mul_right_cancel₀ (ne_of_gt hpos) hc
    exact absurd (Nat.cast_injective h54) (by norm_num)

/-- C6 amended: every group in the per-job leaderboard belongs to an active
job with at least one associated lesson, keyed by the job position; its
performers are non-empty, at most limitPerJob many, drawn from the
oversampled candidate pool (the globally ranked active users with
completions, truncated to 2 × limitPerJob), sorted non-increasingly by the
published per-job estimated score, which is the float product
total_lesson_score * (count / max(lessons_completed, 1)) rounded to one
decimal digit; in particular a job with 3 associated lessons and a user
with total 120 over 10 completions scores exactly 36. -/
theorem job_leaderboard_spec (db : DB) (limit_per_job : ℕ) :
    (∀ pr ∈ get_top_performers_by_related_jobs db limit_per_job,
      ∃ job ∈ db.jobs, job.is_active = true ∧
        pr.1 = job.position ∧
        pr.2.job_info.id = job.id ∧
        pr.2.job_info.related_lessons_count = jobLessonCount db job.id ∧
        0 < jobLessonCount db job.id ∧
        pr.2.top_performers ≠ [] ∧
        pr.2.top_performers.length ≤ limit_per_job ∧
        pr.2.top_performers.Pairwise (fun a b =>
          dblToRat b.job_specific_score ≤ dblToRat a.job_specific_score) ∧
        ∀ p ∈ pr.2.top_performers, ∃ u ∈ candidatePool db limit_per_job,
          p.id = u.id ∧ p.username = u.username ∧
          p.lessons_completed = u.lessons_completed ∧
          p.total_lesson_score = u.total_lesson_score ∧
          p.related_lessons_count = jobLessonCount db job.id ∧
          p.job_specific_score = dblRound1 (pyMul u.total_lesson_score
            (pyDiv (jobLessonCount db job.id) (Nat.max u.lessons_completed 1)))) ∧
    dblToRat (dblRound1 (pyMul 120 (pyDiv 3 (Nat.max 10 1)))) = 36 := by
  constructor
  · intro pr hpr
    simp only [get_top_performers_by_related_jobs] at hpr
    rcases mem_foldl_dictUpsert (fun a b => a.1 == b.1) _ [] pr hpr with h | h
    · simp at h
    · obtain ⟨job, hjobmem, hjg⟩ := List.mem_filterMap.mp h
      obtain ⟨hjobs, hact⟩ := List.mem_filter.mp hjobmem
      by_cases hcnt : jobLessonCount db job.id = 0
      · simp [jobGroup, hcnt] at hjg
      · by_cases hempty : ((sortBy leScore ((candidatePool db limit_per_job).map (mkJobPerformer (jobLessonCount db job.id)))).take limit_per_job).isEmpty
        · rw [jobGroup, if_neg hcnt, if_pos hempty] at hjg
          exact Option.noConfusion hjg
        · have hjg2 : pr = (job.position, { job_info := { id := job.id, position := job.position, company := job.company, job_type := job.job_type, experience_level := job.experience_level, industry := job.industry, related_lessons_count := jobLessonCount db job.id }, top_performers := (sortBy leScore ((candidatePool db limit_per_job).map (mkJobPerformer (jobLessonCount db job.id)))).take limit_per_job }) := by
            have := hjg
            simp only [jobGroup, if_neg hcnt, if_neg hempty] at this
            exact (Option.some.inj this).symm
          subst hjg2
          refine ⟨job, hjobs, hact, rfl, rfl, rfl, Nat.pos_of_ne_zero hcnt, ?_, ?_, ?_, ?_⟩
          · cases hp : (sortBy leScore ((candidatePool db limit_per_job).map (mkJobPerformer (jobLessonCount db job.id)))).take limit_per_job with
            | nil => rw [hp] at hempty; simp at hempty
            | cons a t => simp [hp]
          · exact List.length_take_le _ _
          · refine List.Pairwise.imp ?_ (List.Pairwise.sublist (List.take_sublist _ _) (sortBy_pairwise leScore leScore_trans leScore_total _))
            intro a b hab
            exact (dblLe_iff _ _).mp hab
          · intro p hp
            have hp2 : p ∈ sortBy leScore ((candidatePool db limit_per_job).map (mkJobPerformer (jobLessonCount db job.id))) :=
              List.mem_of_mem_take hp
            have hp3 : p ∈ (candidatePool db limit_per_job).map (mkJobPerformer (jobLessonCount db job.id)) :=
              ((sortBy_perm leScore _).mem_iff).mp hp2
            obtain ⟨u, hu, rfl⟩ := List.mem_map.mp hp3
            exact ⟨u, hu, rfl, rfl, rfl, rfl, rfl, rfl⟩
  · have h36 : dblRound1 (pyMul 120 (pyDiv 3 (Nat.max 10 1))) = ⟨5066549580791808, -47⟩ := by
      decide
    rw [h36, dblToRat_eq]
    rw [show ((⟨5066549580791808, -47⟩ : Dbl).e) = (-47 : ℤ) from rfl]
    rw [show ((⟨5066549580791808, -47⟩ : Dbl).m) = (5066549580791808 : ℕ) from rfl]
    rw [zpow_neg, show ((47 : ℤ)) = ((47 : ℕ) : ℤ) from rfl, zpow_natCast]
    norm_num

/-- C6 witness: the group returned for "Data Analyst" on dbMain with
limitPerJob 5 satisfies the amended specification — active job, one
associated lesson, one performer drawn from the candidate pool with the
rounded float score 120 * (1/4) = 30. -/
theorem job_leaderboard_spec_witness :
    ∃ job ∈ dbMain.jobs, job.is_active = true ∧
      prW.1 = job.position ∧
      prW.2.job_info.id = job.id ∧
      prW.2.job_info.related_lessons_count = jobLessonCount dbMain job.id ∧
      0 < jobLessonCount dbMain job.id ∧
      prW.2.top_performers ≠ [] ∧
      prW.2.top_performers.length ≤ 5 ∧
      prW.2.top_performers.Pairwise (fun a b =>
        dblToRat b.job_specific_score ≤ dblToRat a.job_specific_score) ∧
      ∀ p ∈ prW.2.top_performers, ∃ u ∈ candidatePool dbMain 5,
        p.id = u.id ∧ p.username = u.username ∧
        p.lessons_completed = u.lessons_completed ∧
        p.total_lesson_score = u.total_lesson_score ∧
        p.related_lessons_count = jobLessonCount dbMain job.id ∧
        p.job_specific_score = dblRound1 (pyMul u.total_lesson_score
          (pyDiv (jobLessonCount dbMain job.id) (Nat.max u.lessons_completed 1))) := by
  exact (job_leaderboard_spec dbMain 5).1 prW (by decide)
